import Mathlib

/-!
Verification development for the screen-recorder core: the audio mixing
graph (`mergeAudioStreams`), the video compositor draw loop
(`VideoCompositor.start`), the recording-session start procedure
(`startRecording`), the chunk persistence handler
(`recorder.ondataavailable`), and the trim re-encoder (`saveTrim` /
`handleDrag`).  Each definition is a shallow embedding of the
corresponding TypeScript function; browser capabilities (stream
acquisition, file pickers, write success) appear as explicit parameters.
-/

namespace Luzhi

/-! Section: Audio mixing graph (utils/streamUtils.ts, `mergeAudioStreams`) -/

/-- A single audio track; `channelCount` is the number of audio channels it
carries into the summing destination. -/
structure AudioTrack where
  channelCount : Nat
deriving DecidableEq

/-- A video track, identified abstractly. -/
structure VideoTrack where
  vid : Nat
deriving DecidableEq

/-- A `MediaStream`: a list of video tracks and a list of audio tracks. -/
structure MediaStream where
  videoTracks : List VideoTrack
  audioTracks : List AudioTrack
deriving DecidableEq

/-- Total number of audio channels a stream contributes. -/
def streamAudioChannels (s : MediaStream) : Nat :=
  (s.audioTracks.map AudioTrack.channelCount).sum

/-- The summing destination of the audio context: the list of sources that
were successfully connected to it, in connection order. -/
structure MixGraph where
  connected : List MediaStream
deriving DecidableEq

/-- The mixed output track of the destination: its channels are the sum of the
channels of every connected source (zero when nothing is connected). -/
def mixedTrack (g : MixGraph) : AudioTrack :=
  ⟨(g.connected.map streamAudioChannels).sum⟩

/-- Shallow embedding of `mergeAudioStreams(desktopStream, voiceStream)`.
A source is connected to the destination only when it has at least one
audio track; each `connect` call is wrapped in try/catch in the source, so
a failed connection (modelled by the `desktopConnectFails` /
`voiceConnectFails` flags) is skipped and never propagates an error.  The
returned stream is built from `desktopStream.getVideoTracks()` followed by
the audio tracks of the destination stream. -/
def mergeAudioStreams (desktopStream : MediaStream) (voiceStream : Option MediaStream)
    (desktopConnectFails voiceConnectFails : Bool) : MixGraph × MediaStream :=
  let g1 : List MediaStream :=
    if desktopStream.audioTracks.length > 0 then
      (if desktopConnectFails then [] else [desktopStream])
    else []
  let g2 : List MediaStream :=
    match voiceStream with
    | some vs =>
        if vs.audioTracks.length > 0 then
          (if voiceConnectFails then [] else [vs])
        else []
    | none => []
  let g : MixGraph := ⟨g1 ++ g2⟩
  (g, ⟨desktopStream.videoTracks, [mixedTrack g]⟩)

/-! Section: Video compositor (utils/streamUtils.ts, `VideoCompositor.start`) -/

/-- One drawing operation issued by the `draw` callback of the compositor
into the output canvas.  `drawOverlay` records the circle center, its
diameter (the clip circle and the mirrored camera image share them), and
that the camera image is mirrored; `drawRing` is the border stroke. -/
inductive RenderOp
  | drawBase (w h : ℚ)
  | drawOverlay (cx cy diameter : ℚ) (mirrored : Bool)
  | drawRing (cx cy diameter lineWidth : ℚ)
deriving DecidableEq

/-- Result of one `draw` tick: the canvas size after the lazy resize, the
drawing operations issued, and whether `requestAnimationFrame(draw)` was
called again. -/
structure TickResult where
  canvasW : Nat
  canvasH : Nat
  ops : List RenderOp
  rescheduled : Bool
deriving DecidableEq

/-- The source-level `safeScale` guard (scaleX, or 1 when scaleX is falsy):
fall back to 1 when the
computed scale is zero (division by an unavailable viewport width is
modelled as yielding 0, which the guard replaces by 1). -/
def safeScale (scaleX : ℚ) : ℚ :=
  if scaleX = 0 then 1 else scaleX

/-- Shallow embedding of one iteration of the `draw` closure in
`VideoCompositor.start`.  `hasCtx` models `this.ctx` being non-null;
`videoW`/`videoH` are `screenVideo.videoWidth/Height`; `canvasW`/`canvasH`
the current canvas size; `innerW`/`innerH` are `window.innerWidth/Height`;
`pos` is the polled overlay position.  JavaScript truthiness of the
dimensions is `≠ 0`. -/
def drawTick (hasCtx : Bool) (videoW videoH canvasW canvasH innerW innerH : Nat)
    (pos : ℚ × ℚ) : TickResult :=
  if hasCtx = false then ⟨canvasW, canvasH, [], false⟩
  else
    let resized :=
      if videoW ≠ 0 ∧ videoH ≠ 0 ∧ (canvasW ≠ videoW ∨ canvasH ≠ videoH) then
        (videoW, videoH)
      else (canvasW, canvasH)
    if videoW ≠ 0 ∧ videoH ≠ 0 then
      let scaleX : ℚ := (videoW : ℚ) / (innerW : ℚ)
      let scaleY : ℚ := (videoH : ℚ) / (innerH : ℚ)
      let s : ℚ := safeScale scaleX
      let bubbleSize : ℚ := 192 * s
      let x : ℚ := pos.1 * scaleX
      let y : ℚ := pos.2 * scaleY
      ⟨resized.1, resized.2,
        [RenderOp.drawBase (videoW : ℚ) (videoH : ℚ),
         RenderOp.drawOverlay (x + bubbleSize / 2) (y + bubbleSize / 2) bubbleSize true,
         RenderOp.drawRing (x + bubbleSize / 2) (y + bubbleSize / 2) bubbleSize (4 * s)],
        true⟩
    else
      ⟨resized.1, resized.2, [], true⟩

/-! Section: Recording session start (App.tsx, `startRecording`) -/

/-- The recorder state enum from types.ts. -/
inductive RecorderState
  | IDLE
  | RECORDING
  | PAUSED
  | REVIEW
deriving DecidableEq

/-- A track of a session-level stream, identified abstractly; `stop()`
calls on it are what the session model records. -/
structure STrack where
  tid : Nat
deriving DecidableEq

/-- A session-level stream: its list of tracks (`getTracks()`). -/
structure SStream where
  tracks : List STrack
deriving DecidableEq

/-- Outcome of the `showSaveFilePicker` / `createWritable` step:
`granted` resolves a writable handle, `abortError` is the user cancelling
the dialog (an abort-named rejection), `otherError` is any other
rejection (direct save unavailable). -/
inductive SaveOutcome
  | granted
  | abortError
  | otherError
deriving DecidableEq

/-- The external capabilities observed by one run of `startRecording`:
whether `getDisplayMedia` resolves (and with what stream) or rejects
(`displayCancel` distinguishes a user-cancel style rejection), whether
`showSaveFilePicker` exists and how it resolves, whether the mic is
enabled in settings and whether `getUserMedia` grants it, and whether the
combined stream is still active just before the recorder is constructed. -/
structure SessionEnv where
  display : Option SStream
  displayCancel : Bool
  hasSavePicker : Bool
  saveOutcome : SaveOutcome
  enableMic : Bool
  mic : Option SStream
  combinedActive : Bool
deriving DecidableEq

/-- Observable outcome of one run of `startRecording`: every track on
which `stop()` was called, in call order; whether a microphone stream was
acquired; whether direct save was negotiated and the writable handle is
still open on return; whether a `MediaRecorder` was constructed and
started; the resulting UI state; and the surfaced error, if any. -/
structure StartOutcome where
  stoppedTracks : List STrack
  micAcquired : Bool
  useDirectSave : Bool
  writableOpen : Bool
  recorderStarted : Bool
  state : RecorderState
  error : Option String
deriving DecidableEq

/-- Shallow embedding of `startRecording` in App.tsx, from the
`getDisplayMedia` call up to `setState(RecorderState.RECORDING)`; the
recorder constructor itself is assumed not to throw.  The branches are in
source order: display acquisition (rejection lands in the outer catch,
where `displayStream` is still null so nothing is stopped); the save
destination step (on `AbortError` every display track is stopped and the
function returns with no error); the mic step (failure is caught and the
session proceeds without a mic); and the `combinedStream.active` check
(when inactive the function returns at once). -/
def startRecording (env : SessionEnv) : StartOutcome :=
  match env.display with
  | none =>
      if env.displayCancel then
        ⟨[], false, false, false, false, RecorderState.IDLE, none⟩
      else
        ⟨[], false, false, false, false, RecorderState.IDLE, some "errorGeneric"⟩
  | some ds =>
      let saveStep : Option (Bool × Bool) :=
        if env.hasSavePicker then
          match env.saveOutcome with
          | SaveOutcome.granted => some (true, true)
          | SaveOutcome.abortError => none
          | SaveOutcome.otherError => some (false, false)
        else some (false, false)
      match saveStep with
      | none =>
          ⟨ds.tracks, false, false, false, false, RecorderState.IDLE, none⟩
      | some (useDirectSave, wOpen) =>
          let mic : Option SStream := if env.enableMic then env.mic else none
          if env.combinedActive = false then
            ⟨[], mic.isSome, useDirectSave, wOpen, false, RecorderState.IDLE, none⟩
          else
            ⟨[], mic.isSome, useDirectSave, wOpen, true, RecorderState.RECORDING, none⟩

/-! Section: Chunk persistence (App.tsx, `recorder.ondataavailable` / `onstop`) -/

/-- An immutable byte buffer with a MIME type, as produced by the
recorder `dataavailable` events. -/
structure Blob where
  bytes : List Nat
  type : String
deriving DecidableEq

/-- `new Blob(chunks, { type })`: the ordered concatenation of the chunk
contents. -/
def blobConcat (chunks : List Blob) (ty : String) : Blob :=
  ⟨(chunks.map Blob.bytes).flatten, ty⟩

/-- Persistence state of a session: `writable = some written` models a
negotiated direct-to-disk target together with the chunks already written
to it, in write order; `chunks` is the in-memory accumulation buffer
(`chunksRef.current`). -/
structure ChunkState where
  writable : Option (List Blob)
  chunks : List Blob
deriving DecidableEq

/-- Shallow embedding of the `recorder.ondataavailable` handler for one
chunk event.  A zero-size chunk is ignored entirely.  Otherwise, when a
writable target exists the chunk is written to it; if that write fails
(`writeFails`) the chunk is pushed onto the in-memory buffer instead, and
the writable reference is left in place.  Without a writable target the
chunk is pushed onto the in-memory buffer. -/
def onDataAvailable (st : ChunkState) (data : Blob) (writeFails : Bool) : ChunkState :=
  if 0 < data.bytes.length then
    match st.writable with
    | some written =>
        if writeFails then { st with chunks := st.chunks ++ [data] }
        else { st with writable := some (written ++ [data]) }
    | none => { st with chunks := st.chunks ++ [data] }
  else st

/-- Fold `onDataAvailable` over a sequence of chunk events, each paired
with whether its disk write would fail. -/
def processChunks (st : ChunkState) : List (Blob × Bool) → ChunkState
  | [] => st
  | (c, f) :: rest => processChunks (onDataAvailable st c f) rest

/-- The in-memory branch of `recorder.onstop`: assemble the accumulated
chunks into one blob of the selected MIME type. -/
def finalizeMemoryBlob (st : ChunkState) (ty : String) : Blob :=
  blobConcat st.chunks ty

/-- Every chunk held anywhere in the persistence state (in the memory
buffer or written to the disk target) is non-empty. -/
def chunkStoreOk (st : ChunkState) : Bool :=
  st.chunks.all (fun c => 0 < c.bytes.length) &&
  (st.writable.getD []).all (fun c => 0 < c.bytes.length)

/-! Section: Trim re-encoder (components/Preview.tsx, `saveTrim` / `handleDrag`) -/

/-- The recorded artifact from types.ts: blob, object URL (abstract id),
duration in milliseconds, and creation timestamp. -/
structure RecordedMedia where
  blob : Blob
  url : Nat
  duration : ℚ
  timestamp : ℚ
deriving DecidableEq

/-- Shallow embedding of the `recorder.onstop` assembly inside `saveTrim`: the
captured chunks (each kept only when its size is positive, per the
`ondataavailable` guard) are concatenated into a new blob of the source
MIME type of the source blob, and the updated media record carries a fresh URL,
`duration = (trimEnd - trimStart) * 1000` and the current time.  The
original record is not modified; the update replaces the whole value. -/
def saveTrim (media : RecordedMedia) (trimStart trimEnd : ℚ)
    (capturedChunks : List Blob) (newUrl : Nat) (now : ℚ) : RecordedMedia :=
  let kept := capturedChunks.filter (fun c => 0 < c.bytes.length)
  { media with
    blob := blobConcat kept media.blob.type
    url := newUrl
    duration := (trimEnd - trimStart) * 1000
    timestamp := now }

/-- The pointer-position clamp in `handleDrag`: the fraction of the track
is clamped to `[0, 1]` and scaled by the video duration. -/
def clampedTime (clientX rectLeft rectWidth duration : ℚ) : ℚ :=
  min (max 0 ((clientX - rectLeft) / rectWidth)) 1 * duration

/-- Moving the start handle: `newStart = min(time, trimEnd - 0.5)`. -/
def dragNewStart (time trimEnd : ℚ) : ℚ :=
  min time (trimEnd - 1 / 2)

/-- Moving the end handle: `newEnd = max(time, trimStart + 0.5)`. -/
def dragNewEnd (time trimStart : ℚ) : ℚ :=
  max time (trimStart + 1 / 2)

/-! Section: Helper lemmas -/

/-- With the memory-only strategy (no writable target), one chunk event
appends the chunk to the buffer exactly when it is non-empty. -/
lemma onDataAvailable_none_eq (acc : List Blob) (c : Blob) (f : Bool) :
    onDataAvailable ⟨none, acc⟩ c f =
      ⟨none, acc ++ if 0 < c.bytes.length then [c] else []⟩ := by
  by_cases h : 0 < c.bytes.length <;> simp [onDataAvailable, h]

/-- With the memory-only strategy, folding the handler over an event list
appends exactly the non-empty chunks, in arrival order. -/
lemma processChunks_none_eq (acc : List Blob) (evs : List (Blob × Bool)) :
    processChunks ⟨none, acc⟩ evs =
      ⟨none, acc ++ (evs.map Prod.fst).filter (fun c => 0 < c.bytes.length)⟩ := by
  induction evs generalizing acc with
  | nil => simp [processChunks]
  | cons e rest ih =>
      obtain ⟨c, f⟩ := e
      rw [processChunks, onDataAvailable_none_eq, ih]
      by_cases h : 0 < c.bytes.length <;> simp [h, List.filter_cons]

/-- One chunk event preserves the all-stored-chunks-are-non-empty
invariant. -/
lemma chunkStoreOk_onDataAvailable (st : ChunkState) (c : Blob) (f : Bool)
    (h : chunkStoreOk st = true) :
    chunkStoreOk (onDataAvailable st c f) = true := by
  by_cases hc : 0 < c.bytes.length
  · cases hw : st.writable with
    | some written =>
        cases f <;>
          simp_all [chunkStoreOk, onDataAvailable, hw, hc, List.all_append]
    | none =>
        simp_all [chunkStoreOk, onDataAvailable, hw, hc, List.all_append]
  · simpa [onDataAvailable, hc] using h

/-- Folding the handler preserves the all-stored-chunks-are-non-empty
invariant. -/
lemma chunkStoreOk_processChunks (evs : List (Blob × Bool)) (st : ChunkState)
    (h : chunkStoreOk st = true) :
    chunkStoreOk (processChunks st evs) = true := by
  induction evs generalizing st with
  | nil => simpa [processChunks] using h
  | cons e rest ih =>
      obtain ⟨c, f⟩ := e
      exact ih _ (chunkStoreOk_onDataAvailable st c f h)

/-! Section: Claim theorems -/

/-- Claim C4, counterexample: the stream returned by `mergeAudioStreams`
is claimed to contain the mixed audio only, with no video track; but for a
desktop stream holding one video track the returned stream holds that
video track. -/
theorem mergeAudioStreams_video_attached_cex :
    (mergeAudioStreams ⟨[⟨7⟩], [⟨2⟩]⟩ none false false).2.videoTracks = [⟨7⟩] ∧
    ([(⟨7⟩ : VideoTrack)] : List VideoTrack) ≠ [] := by
  exact ⟨rfl, by decide⟩

/-- Claim C4, amended: for every pair of input streams the stream returned
by `mergeAudioStreams` consists of the video tracks of the desktop stream
(attached by the mixer itself as a default) together with exactly the one
mixed audio track of the summing destination. -/
theorem mergeAudioStreams_output_tracks (d : MediaStream) (v : Option MediaStream)
    (f1 f2 : Bool) :
    (mergeAudioStreams d v f1 f2).2.videoTracks = d.videoTracks ∧
    (mergeAudioStreams d v f1 f2).2.audioTracks =
      [mixedTrack (mergeAudioStreams d v f1 f2).1] := by
  exact ⟨rfl, rfl⟩

/-- Claim C5: for every input source set in which no source has any audio
track, no source is connected to the summing destination and the output
stream carries zero audio channels; mixing is total (per-source connect
failures are caught), so no error is raised. -/
theorem mergeAudioStreams_no_audio_sources (dv : List VideoTrack)
    (vv : Option (List VideoTrack)) (f1 f2 : Bool) :
    (mergeAudioStreams ⟨dv, []⟩ (vv.map fun v => (⟨v, []⟩ : MediaStream)) f1 f2).1.connected
        = [] ∧
    streamAudioChannels
        (mergeAudioStreams ⟨dv, []⟩ (vv.map fun v => (⟨v, []⟩ : MediaStream)) f1 f2).2 = 0 := by
  cases vv <;> simp [mergeAudioStreams, streamAudioChannels, mixedTrack]

/-- Claim C3, counterexample: with base resolution 1920x1080, viewport
960x540 and overlay UI position (0, 0), the claim puts the circle center
at the scaled position (0, 0), but the compositor draws the circle with
center (192, 192) (the scaled position is the top-left corner of the
bubble, offset by the radius), with diameter 384. -/
theorem drawTick_center_not_scaled_position_cex :
    (drawTick true 1920 1080 0 0 960 540 (0, 0)).ops =
      [RenderOp.drawBase 1920 1080,
       RenderOp.drawOverlay 192 192 384 true,
       RenderOp.drawRing 192 192 384 8] ∧
    ((192 : ℚ), (192 : ℚ)) ≠ ((0 : ℚ) * (1920 / 960), (0 : ℚ) * (1080 / 540)) := by
  constructor
  · norm_num [drawTick, safeScale]
  · norm_num [Prod.ext_iff]

/-- Claim C3, amended: for every nonzero base resolution, positive
viewport width and UI position, the overlay circle diameter is
192 * (baseWidth / viewportWidth), and its center is the per-axis-scaled
UI position offset by half that diameter in both coordinates (the offset
in y also derives from the width-based scale). -/
theorem drawTick_overlay_geometry (videoW videoH canvasW canvasH innerW innerH : Nat)
    (px py : ℚ) (hW : 0 < videoW) (hH : 0 < videoH) (hIW : 0 < innerW) :
    (drawTick true videoW videoH canvasW canvasH innerW innerH (px, py)).ops =
      [RenderOp.drawBase (videoW : ℚ) (videoH : ℚ),
       RenderOp.drawOverlay
         (px * ((videoW : ℚ) / (innerW : ℚ)) + 192 * ((videoW : ℚ) / (innerW : ℚ)) / 2)
         (py * ((videoH : ℚ) / (innerH : ℚ)) + 192 * ((videoW : ℚ) / (innerW : ℚ)) / 2)
         (192 * ((videoW : ℚ) / (innerW : ℚ))) true,
       RenderOp.drawRing
         (px * ((videoW : ℚ) / (innerW : ℚ)) + 192 * ((videoW : ℚ) / (innerW : ℚ)) / 2)
         (py * ((videoH : ℚ) / (innerH : ℚ)) + 192 * ((videoW : ℚ) / (innerW : ℚ)) / 2)
         (192 * ((videoW : ℚ) / (innerW : ℚ))) (4 * ((videoW : ℚ) / (innerW : ℚ)))] := by
  have hWQ : ((videoW : ℚ)) ≠ 0 := by
    exact_mod_cast Nat.pos_iff_ne_zero.mp hW
  have hIWQ : ((innerW : ℚ)) ≠ 0 := by
    exact_mod_cast Nat.pos_iff_ne_zero.mp hIW
  have hsx : ((videoW : ℚ) / (innerW : ℚ)) ≠ 0 := div_ne_zero hWQ hIWQ
  simp [drawTick, safeScale, Nat.pos_iff_ne_zero.mp hW, Nat.pos_iff_ne_zero.mp hH, hsx]

/-- Witness for `drawTick_overlay_geometry` at base 1920x1080, canvas
0x0, viewport 960x540, position (10, 20). -/
theorem drawTick_overlay_geometry_witness :
    (drawTick true 1920 1080 0 0 960 540 (10, 20)).ops =
      [RenderOp.drawBase 1920 1080,
       RenderOp.drawOverlay 212 232 384 true,
       RenderOp.drawRing 212 232 384 8] := by
  have h := drawTick_overlay_geometry 1920 1080 0 0 960 540 10 20
    (by decide) (by decide) (by decide)
  norm_num at h
  convert h using 2

/-- Claim C9: on a compositor tick where the base resolution is not yet
known (video width or height is zero), nothing is drawn, the canvas is
left unchanged, and the tick merely reschedules the next draw. -/
theorem drawTick_skips_until_resolution_known
    (videoW videoH canvasW canvasH innerW innerH : Nat) (pos : ℚ × ℚ)
    (h : videoW = 0 ∨ videoH = 0) :
    drawTick true videoW videoH canvasW canvasH innerW innerH pos =
      ⟨canvasW, canvasH, [], true⟩ := by
  rcases h with h | h <;> subst h <;> simp [drawTick]

/-- Witness for `drawTick_skips_until_resolution_known` with zero video
width. -/
theorem drawTick_skips_until_resolution_known_witness :
    drawTick true 0 1080 7 9 960 540 (3, 4) = ⟨7, 9, [], true⟩ :=
  drawTick_skips_until_resolution_known 0 1080 7 9 960 540 (3, 4) (Or.inl rfl)

/-- Claim C1: evaluation at the failing input.  With a display stream of
two tracks acquired, a direct-save target negotiated, a microphone stream
acquired, and the combined stream inactive just before the recorder would
be constructed, `startRecording` returns to IDLE without starting — but
stops no track at all (and leaves the writable handle open), so the
display and microphone sources are not released on this exit path. -/
theorem startRecording_inactive_abort_stops_nothing :
    startRecording
        ⟨some ⟨[⟨0⟩, ⟨1⟩]⟩, false, true, SaveOutcome.granted, true, some ⟨[⟨2⟩]⟩, false⟩ =
      ⟨[], true, true, true, false, RecorderState.IDLE, none⟩ := by
  rfl

/-- Claim C6: if the user cancels the save-destination prompt, the session
aborts: every track of the already-acquired display stream is stopped (in
track order), no microphone is acquired, no recorder is constructed, the
state remains IDLE and no error is surfaced — for every display stream
and every remaining configuration. -/
theorem startRecording_save_cancel_aborts (ds : SStream) (dc em : Bool)
    (mic : Option SStream) (ca : Bool) :
    startRecording ⟨some ds, dc, true, SaveOutcome.abortError, em, mic, ca⟩ =
      ⟨ds.tracks, false, false, false, false, RecorderState.IDLE, none⟩ := by
  rfl

/-- Claim C2, counterexample: starting from a negotiated direct-save
target, a first chunk whose write fails followed by a second chunk whose
write succeeds leaves the second chunk written to the disk target and
absent from the in-memory buffer — the session does not fall back to
in-memory accumulation for the remainder of the session. -/
theorem onDataAvailable_fallback_not_sticky_cex :
    (processChunks ⟨some [], []⟩
        [(⟨[1], "video/webm"⟩, true), (⟨[2], "video/webm"⟩, false)]).writable =
      some [⟨[2], "video/webm"⟩] ∧
    (processChunks ⟨some [], []⟩
        [(⟨[1], "video/webm"⟩, true), (⟨[2], "video/webm"⟩, false)]).chunks =
      [⟨[1], "video/webm"⟩] := by
  exact ⟨rfl, rfl⟩

/-- Claim C2, amended: when a chunk write to the direct-to-disk target
fails, only that chunk is appended to the in-memory buffer; the disk
target is kept, so each subsequently emitted chunk is again routed to the
disk target first and lands in memory only if its own write also fails. -/
theorem onDataAvailable_write_failure_degrades_per_chunk (written mem : List Blob)
    (c : Blob) (f : Bool) (h : 0 < c.bytes.length) :
    onDataAvailable ⟨some written, mem⟩ c f =
      if f then ⟨some written, mem ++ [c]⟩ else ⟨some (written ++ [c]), mem⟩ := by
  cases f <;> simp [onDataAvailable, h]

/-- Witness for `onDataAvailable_write_failure_degrades_per_chunk` on a
one-byte chunk whose write fails. -/
theorem onDataAvailable_write_failure_degrades_per_chunk_witness :
    0 < (Blob.mk [5] "video/webm").bytes.length ∧
    onDataAvailable ⟨some [], []⟩ ⟨[5], "video/webm"⟩ true =
      if true then ⟨some [], [] ++ [⟨[5], "video/webm"⟩]⟩
      else ⟨some ([] ++ [⟨[5], "video/webm"⟩]), []⟩ :=
  ⟨by decide,
   onDataAvailable_write_failure_degrades_per_chunk [] [] ⟨[5], "video/webm"⟩ true (by decide)⟩

/-- Claim C10: a zero-size chunk event is a no-op in every persistence
state; with in-memory accumulation the buffer ends up holding exactly the
non-empty chunks in arrival order and the finalized blob is their ordered
concatenation; and with a direct-save target every chunk stored anywhere
(disk or memory) is non-empty. -/
theorem chunk_pipeline_skips_empty_chunks (evs : List (Blob × Bool)) (ty : String) :
    (processChunks ⟨none, []⟩ evs).chunks =
        (evs.map Prod.fst).filter (fun c => 0 < c.bytes.length) ∧
    finalizeMemoryBlob (processChunks ⟨none, []⟩ evs) ty =
        blobConcat ((evs.map Prod.fst).filter (fun c => 0 < c.bytes.length)) ty ∧
    chunkStoreOk (processChunks ⟨some [], []⟩ evs) = true ∧
    ∀ (st : ChunkState) (f : Bool), onDataAvailable st ⟨[], ty⟩ f = st := by
  refine ⟨?_, ?_, ?_, ?_⟩
  · simp [processChunks_none_eq]
  · simp [finalizeMemoryBlob, processChunks_none_eq]
  · exact chunkStoreOk_processChunks evs _ (by rfl)
  · intro st f
    simp [onDataAvailable]

/-- Claim C7: a completed trim over the window [trimStart, trimEnd)
produces a new artifact whose duration is (trimEnd - trimStart) * 1000
milliseconds; the full-range trim (start 0, end the original duration in
seconds) reproduces the original duration; and the new blob is assembled
from the captured chunks only, so the original blob value is untouched. -/
theorem saveTrim_duration_and_blob (media : RecordedMedia) (s e : ℚ)
    (cs : List Blob) (u : Nat) (now : ℚ) :
    (saveTrim media s e cs u now).duration = (e - s) * 1000 ∧
    (saveTrim media 0 (media.duration / 1000) cs u now).duration = media.duration ∧
    (saveTrim media s e cs u now).blob =
      blobConcat (cs.filter (fun c => 0 < c.bytes.length)) media.blob.type := by
  refine ⟨rfl, ?_, rfl⟩
  show (media.duration / 1000 - 0) * 1000 = media.duration
  rw [sub_zero, div_mul_cancel₀]
  norm_num

/-- Claim C8: the minimum-segment invariant trimEnd - trimStart >= 0.5 is
preserved by every drag update: the clamped pointer time lies in
[0, duration], moving the start handle yields a new start at most
trimEnd - 0.5, and moving the end handle yields a new end at least
trimStart + 0.5, so the window after either move still spans at least
0.5 seconds. -/
theorem handleDrag_preserves_min_segment
    (trimStart trimEnd clientX rectLeft rectWidth duration : ℚ)
    (_hInv : trimEnd - trimStart ≥ 1 / 2) (hdur : 0 ≤ duration) :
    0 ≤ clampedTime clientX rectLeft rectWidth duration ∧
    clampedTime clientX rectLeft rectWidth duration ≤ duration ∧
    dragNewStart (clampedTime clientX rectLeft rectWidth duration) trimEnd ≤
      trimEnd - 1 / 2 ∧
    trimStart + 1 / 2 ≤ dragNewEnd (clampedTime clientX rectLeft rectWidth duration) trimStart ∧
    trimEnd - dragNewStart (clampedTime clientX rectLeft rectWidth duration) trimEnd ≥ 1 / 2 ∧
    dragNewEnd (clampedTime clientX rectLeft rectWidth duration) trimStart - trimStart ≥
      1 / 2 := by
  set t := clampedTime clientX rectLeft rectWidth duration with ht
  have hfrac0 : (0 : ℚ) ≤ min (max 0 ((clientX - rectLeft) / rectWidth)) 1 :=
    le_min (le_max_left 0 _) (by norm_num)
  have hfrac1 : min (max 0 ((clientX - rectLeft) / rectWidth)) 1 ≤ 1 :=
    min_le_right _ _
  have h0 : 0 ≤ t := by
    rw [ht, clampedTime]
    exact mul_nonneg hfrac0 hdur
  have hd : t ≤ duration := by
    rw [ht, clampedTime]
    calc min (max 0 ((clientX - rectLeft) / rectWidth)) 1 * duration
        ≤ 1 * duration := mul_le_mul_of_nonneg_right hfrac1 hdur
      _ = duration := one_mul duration
  have hstart : dragNewStart t trimEnd ≤ trimEnd - 1 / 2 := min_le_right _ _
  have hend : trimStart + 1 / 2 ≤ dragNewEnd t trimStart := le_max_right _ _
  exact ⟨h0, hd, hstart, hend, by linarith, by linarith⟩

/-- Witness for `handleDrag_preserves_min_segment` with window [0, 1] of a
2-second video and a pointer at the middle of the slider track. -/
theorem handleDrag_preserves_min_segment_witness :
    0 ≤ clampedTime 1 0 2 2 ∧
    clampedTime 1 0 2 2 ≤ 2 ∧
    dragNewStart (clampedTime 1 0 2 2) 1 ≤ 1 - 1 / 2 ∧
    0 + 1 / 2 ≤ dragNewEnd (clampedTime 1 0 2 2) 0 ∧
    1 - dragNewStart (clampedTime 1 0 2 2) 1 ≥ 1 / 2 ∧
    dragNewEnd (clampedTime 1 0 2 2) 0 - 0 ≥ 1 / 2 :=
  handleDrag_preserves_min_segment 0 1 1 0 2 2 (by norm_num) (by norm_num)

end Luzhi
